import Mathlib

/-!
Verification of the enrichment pipeline of `pkg/enricher/main.go`
(nuclei-parse-enrich).

The Go code drives two external collaborators (a structured RIPEstat-style
lookup client and a whois text source) plus the Go regexp engine.  These are
modelled as an explicit environment `Env` of oracle functions; a fallible Go
call `(T, error)` becomes `Option T` (`none` = error).  The pipeline functions
are translated one-to-one from `main.go`; functions additionally return the
number of calls they make to the collaborator relevant to the short-circuit
properties ("never consulted").

Go string primitives used by the code are modelled over `String.data`:
`goToLower` is `strings.ToLower` (per-rune lowering), `goJoin` is
`strings.Join`, and `goLe` is the Go byte-wise string comparison (UTF-8 byte
order coincides with code-point order, which is what comparing `String.data`
char-by-char gives).  `sort.Strings` is modelled by `List.insertionSort` with
`goLe`: on the duplicate-free key list produced by the dedup map, any
comparison sort yields the same, unique, ascending result, and the nondeterministic
iteration order of the Go map is erased by the final sort (the model fixes
first-occurrence order for the key list; the permutation-invariance theorem
below shows the choice is immaterial).
-/

/-- Field `Prefix` of the Go type `types.NetworkInfo` is called `prefixStr` here
(that name is unavailable here); `ASNs` keeps its name. -/
structure NetworkInfo where
  prefixStr : String
  ASNs : List String
deriving DecidableEq, Repr

/-- The Go type `types.ASOverview`: the pipeline only consumes `Holder`. -/
structure ASOverview where
  Holder : String
deriving DecidableEq, Repr

/-- One location entry of a geolocation response. -/
structure Location where
  City : String
  Country : String
deriving DecidableEq, Repr

/-- One located-resource entry of a geolocation response. -/
structure LocatedResource where
  Locations : List Location
deriving DecidableEq, Repr

/-- The Go geolocation response: an ordered list of located resources. -/
structure Geolocation where
  LocatedResources : List LocatedResource
deriving DecidableEq, Repr

/-- The Go type `types.EnrichInfo`, the fused output record.  Field `Prefix` is
renamed `prefixStr` (see `NetworkInfo`). -/
structure EnrichInfo where
  Ip : String
  Abuse : String
  Abuse_source : String
  prefixStr : String
  Asn : String
  Holder : String
  City : String
  Country : String
deriving DecidableEq, Repr

/-- The external collaborators of the pipeline, as oracles.  `none` models a
transport/parse error of the corresponding Go call.  `findMails` abstracts
the Go regexp engine: `whoisRegexp.FindAllString(text, -1)`, the list of
non-overlapping email-pattern matches of a text in occurrence order. -/
structure Env where
  getAbuseContacts : String → Option (List String)
  getNetworkInfo : String → Option NetworkInfo
  getASOverview : String → Option ASOverview
  getGeolocationData : String → Option Geolocation
  whois : String → Option String
  findMails : String → List String

/-- Go `strings.ToLower` on the ASCII-ish tokens the pipeline handles:
per-character lowering of the characters of the string. -/
def goToLower (s : String) : String :=
  ⟨s.data.map Char.toLower⟩

/-- Go `strings.Join(elems, sep)`. -/
def goJoin (elems : List String) (sep : String) : String :=
  match elems with
  | [] => ""
  | e :: rest => rest.foldl (fun acc x => acc ++ sep ++ x) e

/-- Byte-order (equivalently code-point-order) lexicographic `≤` on char
lists; Go compares strings this way. -/
def charsLe : List Char → List Char → Bool
  | [], _ => true
  | _ :: _, [] => false
  | a :: as, b :: bs =>
    if a.toNat < b.toNat then true
    else if b.toNat < a.toNat then false
    else charsLe as bs

/-- Comparison `a <= b` of Go on strings: byte-wise lexicographic comparison. -/
def goLe (a b : String) : Bool :=
  charsLe a.data b.data

/-- The order `sort.Strings` sorts by, as a relation. -/
def goLeR (a b : String) : Prop :=
  goLe a b = true

instance : DecidableRel goLeR := fun a b => instDecidableEqBool (goLe a b) true

/-- One step of filling the Go dedup map `m[strings.ToLower(v)] = struct{}{}`:
the map is modelled as its key list in first-insertion order. -/
def dedupStep (acc : List String) (v : String) : List String :=
  if goToLower v ∈ acc then acc else acc ++ [goToLower v]

/-- The key list of the dedup map after inserting the lower-cased form of
every found address. -/
def dedupLower (found : List String) : List String :=
  found.foldl dedupStep []

/-- The general (≥ 2 matches) path of `whoisEnrichmentIP`: lower-case every
match, deduplicate via the map, collect the keys and `sort.Strings` them. -/
def whoisGeneral (found : List String) : List String :=
  List.insertionSort goLeR (dedupLower found)

/-- The `switch len(foundMailAddresses)` of `whoisEnrichmentIP`: 0 matches
give `[]`, exactly 1 match takes the allocation-sparing fast path returning
the single lower-cased match, otherwise the general dedup-and-sort path. -/
def whoisProcess (found : List String) : List String :=
  match found with
  | [] => []
  | [a] => [goToLower a]
  | _ => whoisGeneral found

/-- Model of `whoisEnrichmentIP`: fetch the whois text (error or empty text give no
addresses), scan it with the regexp, and post-process the match list. -/
def whoisEnrichmentIP (env : Env) (ipAddr : String) : List String :=
  match env.whois ipAddr with
  | none => []
  | some whoisInfo =>
    if whoisInfo = "" then []
    else whoisProcess (env.findMails whoisInfo)

/-- Model of `enrichAbuseFromIP`, returning `((abuse, abuse_source), w)` where `w`
counts the calls made to the whois collaborator.  On a primary-lookup error
the Go code returns the sentinels at once; the whois fallback runs only when
the primary call succeeds with an empty contact list. -/
def enrichAbuseFromIP (env : Env) (ipAddr : String) : (String × String) × Nat :=
  match env.getAbuseContacts ipAddr with
  | none => (("unknown", ""), 0)
  | some contacts =>
    if contacts.length > 0 then
      ((goJoin contacts ";", "ripeSTAT"), 0)
    else
      let contacts_from_whois := whoisEnrichmentIP env ipAddr
      if contacts_from_whois.length > 0 then
        ((goJoin contacts_from_whois ";", "whois"), 1)
      else
        (("unknown", ""), 1)

/-- Model of `enrichPrefixAndASNFromIP`: on error both sentinels; on success the
response prefix is taken verbatim and the ASN is the first listed, or the
sentinel when the list is empty. -/
def enrichPrefixAndASNFromIP (env : Env) (ipAddr : String) : String × String :=
  match env.getNetworkInfo ipAddr with
  | none => ("unknown", "unknown")
  | some netInfo =>
    match netInfo.ASNs with
    | [] => (netInfo.prefixStr, "unknown")
    | a :: _ => (netInfo.prefixStr, a)

/-- Model of `enrichHolderFromASN`, returning `(holder, o)` where `o` counts the calls
made to the AS-overview collaborator. -/
def enrichHolderFromASN (env : Env) (asn : String) : String × Nat :=
  if asn = "unknown" then ("unknown", 0)
  else
    match env.getASOverview asn with
    | none => ("unknown", 1)
    | some asOverview => (asOverview.Holder, 1)

/-- Model of the Go function `enrichCityAndCountryFromPrefix` (renamed), returning
`((city, country), g)` where `g` counts the calls made to the geolocation
collaborator. -/
def enrichCityAndCountryFromPfx (env : Env) (pfx : String) : (String × String) × Nat :=
  if pfx = "unknown" then (("unknown", "unknown"), 0)
  else
    match env.getGeolocationData pfx with
    | none => (("unknown", "unknown"), 1)
    | some geolocation =>
      match geolocation.LocatedResources with
      | [] => (("unknown", "unknown"), 1)
      | r :: _ =>
        match r.Locations with
        | [] => (("unknown", "unknown"), 1)
        | loc :: _ => ((loc.City, loc.Country), 1)

/-- Collaborator call counts of one pipeline run, for the short-circuit
properties. -/
structure Calls where
  whoisCalls : Nat
  overviewCalls : Nat
  geoCalls : Nat
deriving DecidableEq, Repr

/-- Model of `EnrichIP`: the four steps in their fixed order, assembling the record. -/
def EnrichIP (env : Env) (ipAddr : String) : EnrichInfo × Calls :=
  let a := enrichAbuseFromIP env ipAddr
  let pa := enrichPrefixAndASNFromIP env ipAddr
  let h := enrichHolderFromASN env pa.2
  let cc := enrichCityAndCountryFromPfx env pa.1
  ({ Ip := ipAddr
     Abuse := a.1.1
     Abuse_source := a.1.2
     prefixStr := pa.1
     Asn := pa.2
     Holder := h.1
     City := cc.1.1
     Country := cc.1.2 },
   { whoisCalls := a.2, overviewCalls := h.2, geoCalls := cc.2 })

/-- Model of `Enrich()`: delegates to `EnrichIP` on the stored IP of the enricher. -/
def Enrich (env : Env) (ipAddr : String) : EnrichInfo × Calls :=
  EnrichIP env ipAddr

theorem charsLe_total : ∀ x y : List Char, charsLe x y = true ∨ charsLe y x = true
  | [], _ => Or.inl rfl
  | _ :: _, [] => Or.inr rfl
  | a :: as, b :: bs => by
    simp only [charsLe]
    rcases Nat.lt_trichotomy a.toNat b.toNat with h | h | h
    · left; simp [h]
    · have h1 : ¬ a.toNat < b.toNat := by omega
      have h2 : ¬ b.toNat < a.toNat := by omega
      rw [if_neg h1, if_neg h2, if_neg h2, if_neg h1]
      exact charsLe_total as bs
    · right; simp [h]

theorem charsLe_trans : ∀ x y z : List Char,
    charsLe x y = true → charsLe y z = true → charsLe x z = true
  | [], _, _ => fun _ _ => rfl
  | a :: as, [], _ => by intro h _; exact absurd h (by simp [charsLe])
  | a :: as, b :: bs, [] => by intro _ h; exact absurd h (by simp [charsLe])
  | a :: as, b :: bs, c :: cs => by
    simp only [charsLe]
    intro h1 h2
    by_cases hab1 : a.toNat < b.toNat
    · by_cases hbc1 : b.toNat < c.toNat
      · simp [Nat.lt_trans hab1 hbc1]
      · by_cases hbc2 : c.toNat < b.toNat
        · simp [Nat.lt_asymm hbc2, hbc2] at h2
        · have : a.toNat < c.toNat := by omega
          simp [this]
    · by_cases hab2 : b.toNat < a.toNat
      · simp [hab1, hab2] at h1
      · rw [if_neg hab1, if_neg hab2] at h1
        by_cases hbc1 : b.toNat < c.toNat
        · have : a.toNat < c.toNat := by omega
          simp [this]
        · by_cases hbc2 : c.toNat < b.toNat
          · simp [hbc1, hbc2] at h2
          · simp only [if_neg hbc1, if_neg hbc2] at h2
            have h3 : ¬ a.toNat < c.toNat := by omega
            have h4 : ¬ c.toNat < a.toNat := by omega
            simp only [if_neg h3, if_neg h4]
            exact charsLe_trans as bs cs h1 h2

theorem charsLe_antisymm : ∀ x y : List Char,
    charsLe x y = true → charsLe y x = true → x = y
  | [], [] => fun _ _ => rfl
  | [], _ :: _ => by intro _ h; exact absurd h (by simp [charsLe])
  | _ :: _, [] => by intro h _; exact absurd h (by simp [charsLe])
  | a :: as, b :: bs => by
    simp only [charsLe]
    intro h1 h2
    by_cases hab : a.toNat < b.toNat
    · simp [Nat.lt_asymm hab, hab] at h2
    · by_cases hba : b.toNat < a.toNat
      · simp [hab, hba] at h1
      · have hn : a.toNat = b.toNat := by omega
        have hc : a = b :=
          Char.eq_of_val_eq (UInt32.eq_of_toBitVec_eq (BitVec.eq_of_toNat_eq hn))
        simp only [if_neg hab, if_neg hba] at h1
        simp only [if_neg hba, if_neg hab] at h2
        subst hc
        exact congrArg (a :: ·) (charsLe_antisymm as bs h1 h2)

theorem goLeR_total (a b : String) : goLeR a b ∨ goLeR b a :=
  charsLe_total a.data b.data

theorem goLeR_trans (a b c : String) : goLeR a b → goLeR b c → goLeR a c :=
  charsLe_trans a.data b.data c.data

theorem goLeR_antisymm (a b : String) : goLeR a b → goLeR b a → a = b := by
  intro h1 h2
  cases a with
  | mk da =>
    cases b with
    | mk db => exact congrArg String.mk (charsLe_antisymm da db h1 h2)

instance : IsTotal String goLeR := ⟨goLeR_total⟩

instance : IsTrans String goLeR := ⟨goLeR_trans⟩

instance : IsAntisymm String goLeR := ⟨goLeR_antisymm⟩

theorem mem_foldl_dedupStep (l : List String) (acc : List String) (x : String) :
    x ∈ l.foldl dedupStep acc ↔ x ∈ acc ∨ ∃ m ∈ l, goToLower m = x := by
  induction l generalizing acc with
  | nil => simp
  | cons v l ih =>
    rw [List.foldl_cons, ih]
    unfold dedupStep
    by_cases h : goToLower v ∈ acc
    · simp only [if_pos h, List.mem_cons]
      constructor
      · rintro (hx | ⟨m, hm, rfl⟩)
        · exact Or.inl hx
        · exact Or.inr ⟨m, Or.inr hm, rfl⟩
      · rintro (hx | ⟨m, hm | hm, rfl⟩)
        · exact Or.inl hx
        · subst hm; exact Or.inl h
        · exact Or.inr ⟨m, hm, rfl⟩
    · simp only [if_neg h, List.mem_append, List.mem_cons, List.not_mem_nil,
        or_false]
      constructor
      · rintro ((hx | hx) | ⟨m, hm, rfl⟩)
        · exact Or.inl hx
        · exact Or.inr ⟨v, Or.inl rfl, hx.symm⟩
        · exact Or.inr ⟨m, Or.inr hm, rfl⟩
      · rintro (hx | ⟨m, hm | hm, rfl⟩)
        · exact Or.inl (Or.inl hx)
        · subst hm; exact Or.inl (Or.inr rfl)
        · exact Or.inr ⟨m, hm, rfl⟩

theorem nodup_foldl_dedupStep (l : List String) (acc : List String)
    (h : acc.Nodup) : (l.foldl dedupStep acc).Nodup := by
  induction l generalizing acc with
  | nil => simpa
  | cons v l ih =>
    rw [List.foldl_cons]
    apply ih
    unfold dedupStep
    by_cases hv : goToLower v ∈ acc
    · simpa [hv]
    · simp only [if_neg hv, List.nodup_append, List.nodup_singleton,
        List.disjoint_singleton]
      exact ⟨h, trivial, hv⟩

theorem mem_dedupLower (found : List String) (x : String) :
    x ∈ dedupLower found ↔ ∃ m ∈ found, goToLower m = x := by
  simpa using mem_foldl_dedupStep found [] x

theorem nodup_dedupLower (found : List String) : (dedupLower found).Nodup :=
  nodup_foldl_dedupStep found [] List.nodup_nil

theorem whoisGeneral_perm (found : List String) :
    (whoisGeneral found).Perm (dedupLower found) :=
  List.perm_insertionSort goLeR (dedupLower found)

theorem whoisGeneral_sorted (found : List String) :
    List.Sorted goLeR (whoisGeneral found) :=
  List.sorted_insertionSort goLeR (dedupLower found)

theorem mem_whoisGeneral (found : List String) (x : String) :
    x ∈ whoisGeneral found ↔ ∃ m ∈ found, goToLower m = x := by
  rw [(whoisGeneral_perm found).mem_iff, mem_dedupLower]

theorem nodup_whoisGeneral (found : List String) : (whoisGeneral found).Nodup :=
  ((whoisGeneral_perm found).nodup_iff).mpr (nodup_dedupLower found)

theorem whoisProcess_sorted (found : List String) :
    List.Sorted goLeR (whoisProcess found) := by
  match found with
  | [] => simp [whoisProcess]
  | [a] => simp [whoisProcess]
  | a :: b :: rest =>
    show List.Sorted goLeR (whoisGeneral (a :: b :: rest))
    exact whoisGeneral_sorted _

theorem mem_whoisProcess (found : List String) (x : String) :
    x ∈ whoisProcess found ↔ ∃ m ∈ found, goToLower m = x := by
  match found with
  | [] => simp [whoisProcess]
  | [a] => simp [whoisProcess, eq_comm]
  | a :: b :: rest =>
    show x ∈ whoisGeneral (a :: b :: rest) ↔ _
    exact mem_whoisGeneral _ _

theorem nodup_whoisProcess (found : List String) : (whoisProcess found).Nodup := by
  match found with
  | [] => simp [whoisProcess]
  | [a] => simp [whoisProcess]
  | a :: b :: rest =>
    show (whoisGeneral (a :: b :: rest)).Nodup
    exact nodup_whoisGeneral _

theorem whoisProcess_perm_congr {l1 l2 : List String} (h : l1.Perm l2) :
    whoisProcess l1 = whoisProcess l2 := by
  refine List.eq_of_perm_of_sorted ?_ (whoisProcess_sorted l1) (whoisProcess_sorted l2)
  rw [List.perm_ext_iff_of_nodup (nodup_whoisProcess l1) (nodup_whoisProcess l2)]
  intro x
  rw [mem_whoisProcess, mem_whoisProcess]
  constructor
  · rintro ⟨m, hm, rfl⟩
    exact ⟨m, h.mem_iff.mp hm, rfl⟩
  · rintro ⟨m, hm, rfl⟩
    exact ⟨m, h.mem_iff.mpr hm, rfl⟩

/-- An environment where every collaborator call fails and the regexp scan
finds nothing. -/
def envNone : Env where
  getAbuseContacts := fun _ => none
  getNetworkInfo := fun _ => none
  getASOverview := fun _ => none
  getGeolocationData := fun _ => none
  whois := fun _ => none
  findMails := fun _ => []

/-- Primary abuse lookup fails, whois text is available and contains one
address. -/
def envC1 : Env :=
  { envNone with
    whois := fun _ => some "abuse: Abuse@Example.COM"
    findMails := fun _ => ["Abuse@Example.COM"] }

/-- Primary abuse lookup succeeds with zero contacts, whois text available. -/
def envC1b : Env :=
  { envNone with
    getAbuseContacts := fun _ => some []
    whois := fun _ => some "abuse@example.com"
    findMails := fun _ => ["abuse@example.com"] }

/-- Network-info lookup succeeds with an empty prefix string and no ASNs. -/
def envC2 : Env :=
  { envNone with
    getNetworkInfo := fun _ => some { prefixStr := "", ASNs := [] } }

/-- Primary abuse lookup succeeds with a repetitious, mixed-case contact
list. -/
def envC5 : Env :=
  { envNone with
    getAbuseContacts := fun _ => some ["a@b.c", "A@B.c", "a@b.c"] }

/-- Geolocation succeeds with one located resource holding one location. -/
def envC9 : Env :=
  { envNone with
    getGeolocationData := fun _ =>
      some { LocatedResources := [{ Locations := [{ City := "Rotterdam", Country := "NL" }] }] } }

/-- C3: the extraction output is the ascending (byte-order) sorted sequence
of the distinct lower-cased regex matches, hence deterministic and
independent of occurrence order; e.g. matches zeta@x.com, alpha@x.com give
["alpha@x.com", "zeta@x.com"]. -/
theorem claim_C3 :
    (∀ env : Env, ∀ ipAddr : String,
      List.Sorted goLeR (whoisEnrichmentIP env ipAddr) ∧
      (whoisEnrichmentIP env ipAddr).Nodup) ∧
    (∀ found : List String,
      List.Sorted goLeR (whoisProcess found) ∧
      (whoisProcess found).Nodup ∧
      (∀ x, x ∈ whoisProcess found ↔ ∃ m ∈ found, goToLower m = x)) ∧
    (∀ l1 l2 : List String, l1.Perm l2 → whoisProcess l1 = whoisProcess l2) ∧
    whoisProcess ["zeta@x.com", "alpha@x.com"] = ["alpha@x.com", "zeta@x.com"] := by
  refine ⟨?_, ?_, ?_, by decide⟩
  · intro env ipAddr
    unfold whoisEnrichmentIP
    match h : env.whois ipAddr with
    | none => exact ⟨List.sorted_nil, List.nodup_nil⟩
    | some t =>
      by_cases ht : t = ""
      · simp only [if_pos ht]
        exact ⟨List.sorted_nil, List.nodup_nil⟩
      · simp only [if_neg ht]
        exact ⟨whoisProcess_sorted _, nodup_whoisProcess _⟩
  · intro found
    exact ⟨whoisProcess_sorted found, nodup_whoisProcess found,
      mem_whoisProcess found⟩
  · intro l1 l2 h
    exact whoisProcess_perm_congr h

/-- C3 witness: the occurrence order of addresses does not matter. -/
theorem claim_C3_witness :
    whoisProcess ["b@x.com", "a@x.com"] = whoisProcess ["a@x.com", "b@x.com"] :=
  claim_C3.2.2.1 ["b@x.com", "a@x.com"] ["a@x.com", "b@x.com"] (by decide)

/-- C4: every output entry is the lower-casing of some match and appears at
most once; text containing Foo@Bar.com and foo@bar.com yields exactly
foo@bar.com. -/
theorem claim_C4 :
    (∀ found : List String,
      (whoisProcess found).Nodup ∧
      (∀ x, x ∈ whoisProcess found → ∃ m ∈ found, goToLower m = x) ∧
      (∀ m, m ∈ found → goToLower m ∈ whoisProcess found)) ∧
    whoisProcess ["Foo@Bar.com", "foo@bar.com"] = ["foo@bar.com"] := by
  refine ⟨?_, by decide⟩
  intro found
  refine ⟨nodup_whoisProcess found, ?_, ?_⟩
  · intro x hx
    exact (mem_whoisProcess found x).mp hx
  · intro m hm
    exact (mem_whoisProcess found (goToLower m)).mpr ⟨m, hm, rfl⟩

/-- C4 witness: the lower-cased form of a match is in the output. -/
theorem claim_C4_witness :
    goToLower "Foo@Bar.com" ∈ whoisProcess ["Foo@Bar.com", "foo@bar.com"] :=
  (claim_C4.1 ["Foo@Bar.com", "foo@bar.com"]).2.2 "Foo@Bar.com" (by decide)

/-- C5: a successful primary lookup with a non-empty contact list gives the
contacts joined verbatim by a semicolon, source ripeSTAT, and zero whois
calls. -/
theorem claim_C5 (env : Env) (ipAddr : String) (contacts : List String)
    (hc : env.getAbuseContacts ipAddr = some contacts) (hne : contacts ≠ []) :
    enrichAbuseFromIP env ipAddr = ((goJoin contacts ";", "ripeSTAT"), 0) := by
  have hp : 0 < contacts.length := List.length_pos.mpr hne
  simp [enrichAbuseFromIP, hc, hp]

/-- C5 witness: duplicates and upper case in the primary contact list are
kept verbatim, and the whois collaborator is not called. -/
theorem claim_C5_witness :
    enrichAbuseFromIP envC5 "198.51.100.1" =
      ((goJoin ["a@b.c", "A@B.c", "a@b.c"] ";", "ripeSTAT"), 0) :=
  claim_C5 envC5 "198.51.100.1" ["a@b.c", "A@B.c", "a@b.c"] rfl (by decide)

/-- C7: with asn resolved to the sentinel, the AS-overview collaborator is
not called and the holder is the sentinel; the holder result depends on the
environment only through `getASOverview` at the given asn. -/
theorem claim_C7 (env : Env) (asn : String) :
    (asn = "unknown" → enrichHolderFromASN env asn = ("unknown", 0)) ∧
    (∀ env2 : Env, env.getASOverview asn = env2.getASOverview asn →
      enrichHolderFromASN env asn = enrichHolderFromASN env2 asn) := by
  constructor
  · intro h
    simp [enrichHolderFromASN, h]
  · intro env2 h
    unfold enrichHolderFromASN
    by_cases ha : asn = "unknown"
    · simp [ha]
    · simp only [if_neg ha]
      rw [h]

/-- C7 witness: the sentinel asn short-circuits. -/
theorem claim_C7_witness : enrichHolderFromASN envNone "unknown" = ("unknown", 0) :=
  (claim_C7 envNone "unknown").1 rfl

/-- C8: with the prefix resolved to the sentinel, the geolocation
collaborator is not called and city and country are the sentinel. -/
theorem claim_C8 (env : Env) (pfx : String) (h : pfx = "unknown") :
    enrichCityAndCountryFromPfx env pfx = (("unknown", "unknown"), 0) := by
  simp [enrichCityAndCountryFromPfx, h]

/-- C8 witness: the sentinel prefix short-circuits. -/
theorem claim_C8_witness :
    enrichCityAndCountryFromPfx envNone "unknown" = (("unknown", "unknown"), 0) :=
  claim_C8 envNone "unknown" rfl

/-- C10: on a single-match scan the fast path and the general
dedup-and-sort path agree: both return just the lower-cased match. -/
theorem claim_C10 (m : String) :
    whoisProcess [m] = whoisGeneral [m] ∧ whoisProcess [m] = [goToLower m] := by
  have hg : whoisGeneral [m] = [goToLower m] := by
    simp [whoisGeneral, dedupLower, dedupStep, List.insertionSort, List.orderedInsert]
  have hp : whoisProcess [m] = [goToLower m] := rfl
  exact ⟨hp.trans hg.symm, hp⟩

/-- C1 counterexample: the primary abuse lookup fails with an error, the
whois source would yield an address, yet the code returns the sentinels
without consulting whois (0 whois calls), not source "whois". -/
theorem claim_C1_counterexample :
    envC1.getAbuseContacts "203.0.113.5" = none ∧
    whoisEnrichmentIP envC1 "203.0.113.5" = ["abuse@example.com"] ∧
    enrichAbuseFromIP envC1 "203.0.113.5" = (("unknown", ""), 0) ∧
    (enrichAbuseFromIP envC1 "203.0.113.5").1.2 ≠ "whois" := by
  refine ⟨rfl, by decide, rfl, by decide⟩

/-- C1 (amended): a primary-lookup transport/parse failure is returned as
("unknown", "") with no whois call; only a successful primary lookup with
zero contacts proceeds to whois, and then a non-empty extraction gives the
addresses joined by ";" with source "whois". -/
theorem claim_C1 (env : Env) (ipAddr : String) :
    (env.getAbuseContacts ipAddr = some [] →
      whoisEnrichmentIP env ipAddr ≠ [] →
      enrichAbuseFromIP env ipAddr =
        ((goJoin (whoisEnrichmentIP env ipAddr) ";", "whois"), 1)) ∧
    (env.getAbuseContacts ipAddr = none →
      enrichAbuseFromIP env ipAddr = (("unknown", ""), 0)) := by
  constructor
  · intro h hne
    have hp : 0 < (whoisEnrichmentIP env ipAddr).length := List.length_pos.mpr hne
    simp [enrichAbuseFromIP, h, hp]
  · intro h
    simp [enrichAbuseFromIP, h]

/-- C1 witness: zero primary contacts plus a whois hit give source
"whois". -/
theorem claim_C1_witness :
    enrichAbuseFromIP envC1b "198.51.100.7" =
      ((goJoin (whoisEnrichmentIP envC1b "198.51.100.7") ";", "whois"), 1) :=
  (claim_C1 envC1b "198.51.100.7").1 rfl (by decide)

/-- C6 counterexample: a successful network-info response carrying no prefix
(empty string) and no ASNs makes the code return prefix "", not the sentinel
"unknown" the claim requires for an absent prefix. -/
theorem claim_C6_counterexample :
    envC2.getNetworkInfo "198.51.100.7" = some { prefixStr := "", ASNs := [] } ∧
    enrichPrefixAndASNFromIP envC2 "198.51.100.7" = ("", "unknown") ∧
    ("" : String) ≠ "unknown" := by
  refine ⟨rfl, rfl, by decide⟩

/-- C6 (amended): on failure both fields are "unknown"; on success the
prefix is taken verbatim from the response (possibly the empty string), the
asn is "unknown" when the response lists no ASNs and the first listed ASN
otherwise. -/
theorem claim_C6 (env : Env) (ipAddr : String) :
    (env.getNetworkInfo ipAddr = none →
      enrichPrefixAndASNFromIP env ipAddr = ("unknown", "unknown")) ∧
    (∀ n : NetworkInfo, env.getNetworkInfo ipAddr = some n → n.ASNs = [] →
      enrichPrefixAndASNFromIP env ipAddr = (n.prefixStr, "unknown")) ∧
    (∀ n : NetworkInfo, ∀ a : String, ∀ rest : List String,
      env.getNetworkInfo ipAddr = some n → n.ASNs = a :: rest →
      enrichPrefixAndASNFromIP env ipAddr = (n.prefixStr, a)) := by
  refine ⟨?_, ?_, ?_⟩
  · intro h
    simp [enrichPrefixAndASNFromIP, h]
  · intro n hn hasn
    simp [enrichPrefixAndASNFromIP, hn, hasn]
  · intro n a rest hn hasn
    simp [enrichPrefixAndASNFromIP, hn, hasn]

/-- C6 witness: empty ASN list in a successful response gives the verbatim
response prefix and the sentinel asn. -/
theorem claim_C6_witness :
    enrichPrefixAndASNFromIP envC2 "203.0.113.9" = ("", "unknown") :=
  (claim_C6 envC2 "203.0.113.9").2.1 { prefixStr := "", ASNs := [] } rfl rfl

/-- C9: for a queried (non-sentinel) prefix, a failed lookup, an empty
located-resources list, or an empty locations list in the first resource all
give the sentinels; otherwise city and country come from the first location
of the first located resource. -/
theorem claim_C9 (env : Env) (pfx : String) (h : pfx ≠ "unknown") :
    (env.getGeolocationData pfx = none →
      enrichCityAndCountryFromPfx env pfx = (("unknown", "unknown"), 1)) ∧
    (∀ g : Geolocation, env.getGeolocationData pfx = some g →
      (g.LocatedResources = [] →
        enrichCityAndCountryFromPfx env pfx = (("unknown", "unknown"), 1)) ∧
      (∀ r : LocatedResource, ∀ rest : List LocatedResource,
        g.LocatedResources = r :: rest →
        (r.Locations = [] →
          enrichCityAndCountryFromPfx env pfx = (("unknown", "unknown"), 1)) ∧
        (∀ loc : Location, ∀ lrest : List Location, r.Locations = loc :: lrest →
          enrichCityAndCountryFromPfx env pfx = ((loc.City, loc.Country), 1)))) := by
  unfold enrichCityAndCountryFromPfx
  rw [if_neg h]
  refine ⟨?_, ?_⟩
  · intro hg
    rw [hg]
  · intro g hg
    rw [hg]
    dsimp only
    refine ⟨?_, ?_⟩
    · intro hr
      rw [hr]
    · intro r rest hr
      rw [hr]
      dsimp only
      refine ⟨?_, ?_⟩
      · intro hl
        rw [hl]
      · intro loc lrest hl
        rw [hl]

/-- C9 witness: first location of the first located resource wins. -/
theorem claim_C9_witness :
    enrichCityAndCountryFromPfx envC9 "203.0.113.0/24" = (("Rotterdam", "NL"), 1) :=
  (((claim_C9 envC9 "203.0.113.0/24" (by decide)).2
      { LocatedResources := [{ Locations := [{ City := "Rotterdam", Country := "NL" }] }] }
      rfl).2
    { Locations := [{ City := "Rotterdam", Country := "NL" }] } [] rfl).2
    { City := "Rotterdam", Country := "NL" } [] rfl

theorem length_le_goJoin_foldl (sep : String) (l : List String) (acc : String) :
    acc.length ≤ (l.foldl (fun acc x => acc ++ sep ++ x) acc).length := by
  induction l generalizing acc with
  | nil => exact Nat.le_refl _
  | cons x l ih =>
    rw [List.foldl_cons]
    calc acc.length ≤ (acc ++ sep ++ x).length := by
          rw [String.length_append, String.length_append]; omega
      _ ≤ _ := ih (acc ++ sep ++ x)

theorem ne_empty_of_length_pos (s : String) (h : 0 < s.length) : s ≠ "" := by
  intro he
  rw [he] at h
  exact absurd h (by decide)

theorem length_pos_of_ne_empty (s : String) (h : s ≠ "") : 0 < s.length := by
  cases s with
  | mk data =>
    cases data with
    | nil => exact absurd rfl h
    | cons c cs =>
      show 0 < (String.mk (c :: cs)).length
      simp [String.length]

theorem goJoin_ne_empty (l : List String) (sep : String) (hne : l ≠ [])
    (h : ∀ c ∈ l, c ≠ "") : goJoin l sep ≠ "" := by
  match l with
  | [] => exact absurd rfl hne
  | e :: rest =>
    apply ne_empty_of_length_pos
    have h1 : 0 < e.length :=
      length_pos_of_ne_empty e (h e (List.mem_cons_self e rest))
    calc 0 < e.length := h1
      _ ≤ (goJoin (e :: rest) sep).length := length_le_goJoin_foldl sep rest e

theorem goToLower_ne_empty (s : String) (h : s ≠ "") : goToLower s ≠ "" := by
  apply ne_empty_of_length_pos
  have h1 := length_pos_of_ne_empty s h
  have hl : (goToLower s).length = s.length := by
    cases s with
    | mk data => simp [goToLower, String.length]
  omega

theorem mem_whoisEnrichmentIP (env : Env) (ipAddr : String) (x : String)
    (hx : x ∈ whoisEnrichmentIP env ipAddr) :
    ∃ t m, env.whois ipAddr = some t ∧ m ∈ env.findMails t ∧ goToLower m = x := by
  unfold whoisEnrichmentIP at hx
  cases h : env.whois ipAddr with
  | none =>
    rw [h] at hx
    exact absurd hx (List.not_mem_nil x)
  | some t =>
    rw [h] at hx
    dsimp only at hx
    by_cases ht : t = ""
    · rw [if_pos ht] at hx
      exact absurd hx (List.not_mem_nil x)
    · rw [if_neg ht] at hx
      obtain ⟨m, hm, hlm⟩ := (mem_whoisProcess _ _).mp hx
      exact ⟨t, m, rfl, hm, hlm⟩

theorem enrichAbuse_ne_empty (env : Env) (ipAddr : String)
    (hA : ∀ s l, env.getAbuseContacts s = some l → ∀ c ∈ l, c ≠ "")
    (hW : ∀ s m, m ∈ env.findMails s → m ≠ "") :
    (enrichAbuseFromIP env ipAddr).1.1 ≠ "" := by
  cases hc : env.getAbuseContacts ipAddr with
  | none => simp [enrichAbuseFromIP, hc]
  | some contacts =>
    by_cases hl : 0 < contacts.length
    · simp only [enrichAbuseFromIP, hc, gt_iff_lt, hl, if_true]
      exact goJoin_ne_empty contacts ";"
        (fun he => by rw [he] at hl; simp at hl)
        (hA ipAddr contacts hc)
    · by_cases hw : 0 < (whoisEnrichmentIP env ipAddr).length
      · simp only [enrichAbuseFromIP, hc, gt_iff_lt, hl, if_false, hw, if_true]
        refine goJoin_ne_empty _ ";" ?_ ?_
        · intro he
          rw [he] at hw
          simp at hw
        · intro c hcm
          obtain ⟨t, m, hwho, hm, hlm⟩ := mem_whoisEnrichmentIP env ipAddr c hcm
          rw [← hlm]
          exact goToLower_ne_empty m (hW t m hm)
      · simp [enrichAbuseFromIP, hc, hl, hw]

theorem enrichAbuse_source_cases (env : Env) (ipAddr : String) :
    (enrichAbuseFromIP env ipAddr).1.2 = "ripeSTAT" ∨
    (enrichAbuseFromIP env ipAddr).1.2 = "whois" ∨
    (enrichAbuseFromIP env ipAddr).1.2 = "" := by
  cases hc : env.getAbuseContacts ipAddr with
  | none => simp [enrichAbuseFromIP, hc]
  | some contacts =>
    by_cases hl : 0 < contacts.length
    · simp [enrichAbuseFromIP, hc, hl]
    · by_cases hw : 0 < (whoisEnrichmentIP env ipAddr).length
      · simp [enrichAbuseFromIP, hc, hl, hw]
      · simp [enrichAbuseFromIP, hc, hl, hw]

theorem enrichPrefixAndASN_ne_empty (env : Env) (ipAddr : String)
    (hN : ∀ s n, env.getNetworkInfo s = some n →
      n.prefixStr ≠ "" ∧ ∀ a ∈ n.ASNs, a ≠ "") :
    (enrichPrefixAndASNFromIP env ipAddr).1 ≠ "" ∧
    (enrichPrefixAndASNFromIP env ipAddr).2 ≠ "" := by
  unfold enrichPrefixAndASNFromIP
  cases hc : env.getNetworkInfo ipAddr with
  | none => exact ⟨by decide, by decide⟩
  | some n =>
    obtain ⟨hp, ha⟩ := hN ipAddr n hc
    dsimp only
    cases hasn : n.ASNs with
    | nil => exact ⟨hp, by show ("unknown" : String) ≠ ""; decide⟩
    | cons a rest =>
      refine ⟨hp, ha a ?_⟩
      rw [hasn]
      exact List.mem_cons_self a rest

theorem enrichHolder_ne_empty (env : Env) (asn : String)
    (hO : ∀ s o, env.getASOverview s = some o → o.Holder ≠ "") :
    (enrichHolderFromASN env asn).1 ≠ "" := by
  unfold enrichHolderFromASN
  by_cases h : asn = "unknown"
  · rw [if_pos h]
    decide
  · rw [if_neg h]
    cases hc : env.getASOverview asn with
    | none => decide
    | some o => exact hO asn o hc

theorem enrichCityCountry_ne_empty (env : Env) (pfx : String)
    (hG : ∀ s g, env.getGeolocationData s = some g →
      ∀ r ∈ g.LocatedResources, ∀ loc ∈ r.Locations,
        loc.City ≠ "" ∧ loc.Country ≠ "") :
    (enrichCityAndCountryFromPfx env pfx).1.1 ≠ "" ∧
    (enrichCityAndCountryFromPfx env pfx).1.2 ≠ "" := by
  unfold enrichCityAndCountryFromPfx
  by_cases h : pfx = "unknown"
  · rw [if_pos h]
    exact ⟨by decide, by decide⟩
  · rw [if_neg h]
    cases hc : env.getGeolocationData pfx with
    | none => exact ⟨by decide, by decide⟩
    | some g =>
      dsimp only
      cases hr : g.LocatedResources with
      | nil => exact ⟨by decide, by decide⟩
      | cons r rest =>
        dsimp only
        cases hloc : r.Locations with
        | nil => exact ⟨by decide, by decide⟩
        | cons loc lrest =>
          have hrm : r ∈ g.LocatedResources := by
            rw [hr]; exact List.mem_cons_self r rest
          have hmem : loc ∈ r.Locations := by
            rw [hloc]; exact List.mem_cons_self loc lrest
          exact hG pfx g hc r hrm loc hmem

/-- Every value carried by a successful collaborator response (or found by
the regexp scan) is a non-empty string. -/
def EnvDataNonEmpty (env : Env) : Prop :=
  (∀ s l, env.getAbuseContacts s = some l → ∀ c ∈ l, c ≠ "") ∧
  (∀ s n, env.getNetworkInfo s = some n →
    n.prefixStr ≠ "" ∧ ∀ a ∈ n.ASNs, a ≠ "") ∧
  (∀ s o, env.getASOverview s = some o → o.Holder ≠ "") ∧
  (∀ s g, env.getGeolocationData s = some g →
    ∀ r ∈ g.LocatedResources, ∀ loc ∈ r.Locations,
      loc.City ≠ "" ∧ loc.Country ≠ "") ∧
  (∀ s m, m ∈ env.findMails s → m ≠ "")

/-- All collaborator calls succeed and carry only non-empty data. -/
def envC2b : Env where
  getAbuseContacts := fun _ => some ["abuse@example.net"]
  getNetworkInfo := fun _ => some { prefixStr := "203.0.113.0/24", ASNs := ["64500"] }
  getASOverview := fun _ => some { Holder := "EXAMPLE-NET" }
  getGeolocationData := fun _ =>
    some { LocatedResources := [{ Locations := [{ City := "Rotterdam", Country := "NL" }] }] }
  whois := fun _ => none
  findMails := fun _ => []

/-- C2 counterexample: a successful network-info response carrying the empty
string as prefix flows verbatim into the record: the prefix field of the
returned record is the empty string, neither data nor "unknown". -/
theorem claim_C2_counterexample :
    envC2.getNetworkInfo "192.0.2.1" = some { prefixStr := "", ASNs := [] } ∧
    (EnrichIP envC2 "192.0.2.1").1.prefixStr = "" :=
  ⟨rfl, rfl⟩

/-- C2 (amended): when every value carried by a successful collaborator
response is non-empty, every field of the record returned by EnrichIP is
non-empty, except Abuse_source which is always one of "ripeSTAT", "whois" or
"" (failed or no-data lookups fall back to the sentinel "unknown", and data
is taken verbatim, so empty response values would flow through). -/
theorem claim_C2 (env : Env) (ipAddr : String) (h : EnvDataNonEmpty env) :
    (EnrichIP env ipAddr).1.Abuse ≠ "" ∧
    ((EnrichIP env ipAddr).1.Abuse_source = "ripeSTAT" ∨
      (EnrichIP env ipAddr).1.Abuse_source = "whois" ∨
      (EnrichIP env ipAddr).1.Abuse_source = "") ∧
    (EnrichIP env ipAddr).1.prefixStr ≠ "" ∧
    (EnrichIP env ipAddr).1.Asn ≠ "" ∧
    (EnrichIP env ipAddr).1.Holder ≠ "" ∧
    (EnrichIP env ipAddr).1.City ≠ "" ∧
    (EnrichIP env ipAddr).1.Country ≠ "" := by
  obtain ⟨hA, hN, hO, hG, hW⟩ := h
  exact ⟨enrichAbuse_ne_empty env ipAddr hA hW,
    enrichAbuse_source_cases env ipAddr,
    (enrichPrefixAndASN_ne_empty env ipAddr hN).1,
    (enrichPrefixAndASN_ne_empty env ipAddr hN).2,
    enrichHolder_ne_empty env (enrichPrefixAndASNFromIP env ipAddr).2 hO,
    (enrichCityCountry_ne_empty env (enrichPrefixAndASNFromIP env ipAddr).1 hG).1,
    (enrichCityCountry_ne_empty env (enrichPrefixAndASNFromIP env ipAddr).1 hG).2⟩

/-- C2 witness: with non-empty response data, record fields are non-empty. -/
theorem claim_C2_witness :
    (EnrichIP envC2b "203.0.113.5").1.Abuse ≠ "" ∧
    (EnrichIP envC2b "203.0.113.5").1.prefixStr ≠ "" ∧
    (EnrichIP envC2b "203.0.113.5").1.Holder ≠ "" := by
  have h : EnvDataNonEmpty envC2b := by
    refine ⟨?_, ?_, ?_, ?_, ?_⟩
    · intro s l hl
      have hl2 : some ["abuse@example.net"] = some l := hl
      injection hl2 with he
      subst he
      decide
    · intro s n hn
      have hn2 : some { prefixStr := "203.0.113.0/24", ASNs := ["64500"] } = some n := hn
      injection hn2 with he
      subst he
      exact ⟨by decide, by decide⟩
    · intro s o ho
      have ho2 : some { Holder := "EXAMPLE-NET" } = some o := ho
      injection ho2 with he
      subst he
      decide
    · intro s g hg
      have hg2 : some { LocatedResources := [{ Locations := [{ City := "Rotterdam", Country := "NL" }] }] } = some g := hg
      injection hg2 with he
      subst he
      decide
    · intro s m hm
      exact absurd hm (List.not_mem_nil m)
  exact ⟨(claim_C2 envC2b "203.0.113.5" h).1,
    (claim_C2 envC2b "203.0.113.5" h).2.2.1,
    (claim_C2 envC2b "203.0.113.5" h).2.2.2.2.1⟩
